import Mathlib

/-!
Verification development for the one-time-secret backend.

The definitions below are a shallow embedding of the Go sources:
  * `backend/internal/validation/validator.go` — `ValidateCreateRequest`,
    `ValidateSecretID` and the size/TTL constants;
  * the API handler file (`handlers.go`) — `CreateSecret`, `GetSecret`
    (atomic consume) and `BurnSecret`, with the persistent `secrets` table
    modelled as a list of rows;
  * the rate-limiting middleware — `RateLimiter.allow`.

Machine integers are modelled as `Nat`/`Int`; Go's `int64` wraparound is made
explicit (`wrap64`) where the source can overflow (`time.Duration(expiresIn)
* time.Second`).  Bytes are `Fin 256`.  Go's `base64.StdEncoding` is embedded
by `encodeB64`/`decodeB64`.
-/

namespace OTS

/-- A byte, as stored in Go `[]byte` buffers. -/
abbrev Byte := Fin 256

/-- Build a byte from a natural number (used by the base64 decoder, whose
arithmetic always stays below 256 anyway). -/
def mkByte (n : Nat) : Byte := ⟨n % 256, Nat.mod_lt _ (by decide)⟩

/-! ### Go `encoding/base64`, standard alphabet with padding

`base64.StdEncoding.EncodeToString` / `DecodeString` as used by the validator
and the `GetSecret` response.  The decoder follows Go's non-strict default:
padding is required, `=` may only appear as final-quantum padding, and the
unused low bits of the last symbol are not checked.  (Go additionally skips
`\r`/`\n` inside the input; no claim depends on that and the encoder never
produces them.) -/

/-- The standard base64 alphabet (RFC 4648). -/
def stdAlphabet : String :=
  "ABCDEFGHIJKLMNOPQRSTUVWXYZabcdefghijklmnopqrstuvwxyz0123456789+/"

/-- The character encoding a 6-bit value. -/
def b64char (n : Nat) : Char := stdAlphabet.toList.getD n '?'

/-- The 6-bit value of an alphabet character, `none` for characters outside
the alphabet (Go reports `CorruptInputError` there). -/
def b64val (c : Char) : Option Nat := stdAlphabet.toList.indexOf? c

/-- `base64.StdEncoding.EncodeToString`, producing the character list of the
encoded string: 3-byte groups become 4 symbols, a 1- or 2-byte tail is padded
with `=`. -/
def encodeB64 : List Byte → List Char
  | [] => []
  | [a] =>
      [b64char (a.val / 4), b64char (a.val % 4 * 16), '=', '=']
  | [a, b] =>
      [b64char (a.val / 4), b64char (a.val % 4 * 16 + b.val / 16),
       b64char (b.val % 16 * 4), '=']
  | a :: b :: c :: rest =>
      b64char (a.val / 4) :: b64char (a.val % 4 * 16 + b.val / 16) ::
      b64char (b.val % 16 * 4 + c.val / 64) :: b64char (c.val % 64) ::
      encodeB64 rest

/-- `base64.StdEncoding.DecodeString` on a character list: input must be a
sequence of 4-symbol quantums; the final quantum may end in `=` (3 bytes
encoded) or `==` (2 bytes encoded); anything else is a decode error
(`none`). -/
def decodeB64 : List Char → Option (List Byte)
  | [] => some []
  | c1 :: c2 :: c3 :: c4 :: rest =>
      match b64val c1, b64val c2 with
      | some v1, some v2 =>
          if c3 = '=' then
            if c4 = '=' ∧ rest = [] then
              some [mkByte (v1 * 4 + v2 / 16)]
            else none
          else
            match b64val c3 with
            | some v3 =>
                if c4 = '=' then
                  if rest = [] then
                    some [mkByte (v1 * 4 + v2 / 16), mkByte (v2 % 16 * 16 + v3 / 4)]
                  else none
                else
                  match b64val c4 with
                  | some v4 =>
                      (decodeB64 rest).map fun bs =>
                        mkByte (v1 * 4 + v2 / 16) :: mkByte (v2 % 16 * 16 + v3 / 4) ::
                        mkByte (v3 % 4 * 64 + v4) :: bs
                  | none => none
            | none => none
      | _, _ => none
  | _ => none

theorem b64val_b64char_fin : ∀ n : Fin 64, b64val (b64char n.val) = some n.val := by
  decide

theorem b64val_b64char (n : Nat) (h : n < 64) : b64val (b64char n) = some n :=
  b64val_b64char_fin ⟨n, h⟩

theorem b64char_ne_pad_fin : ∀ n : Fin 64, b64char n.val ≠ '=' := by
  decide

theorem b64char_ne_pad (n : Nat) (h : n < 64) : b64char n ≠ '=' :=
  b64char_ne_pad_fin ⟨n, h⟩

/-- Decoding inverts encoding: the byte buffers stored at creation are
recovered exactly from the base64 strings returned by `GetSecret`. -/
theorem decodeB64_encodeB64 : ∀ bs : List Byte, decodeB64 (encodeB64 bs) = some bs
  | [] => rfl
  | [a] => by
      have ha := a.isLt
      have h1 : b64val (b64char (a.val / 4)) = some (a.val / 4) :=
        b64val_b64char _ (by omega)
      have h2 : b64val (b64char (a.val % 4 * 16)) = some (a.val % 4 * 16) :=
        b64val_b64char _ (by omega)
      simp only [encodeB64, decodeB64, h1, h2]
      simp only [if_pos rfl, and_self, if_pos]
      have : mkByte (a.val / 4 * 4 + a.val % 4 * 16 / 16) = a := by
        apply Fin.ext
        simp only [mkByte]
        omega
      rw [this]
  | [a, b] => by
      have ha := a.isLt
      have hb := b.isLt
      have h1 : b64val (b64char (a.val / 4)) = some (a.val / 4) :=
        b64val_b64char _ (by omega)
      have h2 : b64val (b64char (a.val % 4 * 16 + b.val / 16)) =
          some (a.val % 4 * 16 + b.val / 16) := b64val_b64char _ (by omega)
      have h3 : b64val (b64char (b.val % 16 * 4)) = some (b.val % 16 * 4) :=
        b64val_b64char _ (by omega)
      have hne : b64char (b.val % 16 * 4) ≠ '=' := b64char_ne_pad _ (by omega)
      simp only [encodeB64, decodeB64, h1, h2, h3, if_neg hne, if_pos rfl, if_pos]
      have e1 : mkByte (a.val / 4 * 4 + (a.val % 4 * 16 + b.val / 16) / 16) = a := by
        apply Fin.ext; simp only [mkByte]; omega
      have e2 : mkByte ((a.val % 4 * 16 + b.val / 16) % 16 * 16 + b.val % 16 * 4 / 4) = b := by
        apply Fin.ext; simp only [mkByte]; omega
      rw [e1, e2]
  | a :: b :: c :: rest => by
      have ha := a.isLt
      have hb := b.isLt
      have hc := c.isLt
      have h1 : b64val (b64char (a.val / 4)) = some (a.val / 4) :=
        b64val_b64char _ (by omega)
      have h2 : b64val (b64char (a.val % 4 * 16 + b.val / 16)) =
          some (a.val % 4 * 16 + b.val / 16) := b64val_b64char _ (by omega)
      have h3 : b64val (b64char (b.val % 16 * 4 + c.val / 64)) =
          some (b.val % 16 * 4 + c.val / 64) := b64val_b64char _ (by omega)
      have h4 : b64val (b64char (c.val % 64)) = some (c.val % 64) :=
        b64val_b64char _ (by omega)
      have hne3 : b64char (b.val % 16 * 4 + c.val / 64) ≠ '=' := b64char_ne_pad _ (by omega)
      have hne4 : b64char (c.val % 64) ≠ '=' := b64char_ne_pad _ (by omega)
      have ih := decodeB64_encodeB64 rest
      simp only [encodeB64, decodeB64, h1, h2, h3, h4, if_neg hne3, if_neg hne4, ih,
        Option.map_some]
      have e1 : mkByte (a.val / 4 * 4 + (a.val % 4 * 16 + b.val / 16) / 16) = a := by
        apply Fin.ext; simp only [mkByte]; omega
      have e2 : mkByte ((a.val % 4 * 16 + b.val / 16) % 16 * 16 +
          (b.val % 16 * 4 + c.val / 64) / 4) = b := by
        apply Fin.ext; simp only [mkByte]; omega
      have e3 : mkByte ((b.val % 16 * 4 + c.val / 64) % 4 * 64 + c.val % 64) = c := by
        apply Fin.ext; simp only [mkByte]; omega
      rw [e1, e2, e3]
      rfl

/-! ### Validator (`backend/internal/validation/validator.go`) -/

/-- The sentinel errors of the validation package. -/
inductive VError where
  | invalidCiphertext
  | invalidIV
  | invalidSalt
  | invalidSecretID
  | invalidTTL
  | secretTooLarge
deriving DecidableEq, Repr

deriving instance DecidableEq for Except

/-- `MaxSecretSize = 32768` (32KB). -/
def MaxSecretSize : Nat := 32768

/-- `MinSecretSize = 1`. -/
def MinSecretSize : Nat := 1

/-- One second in nanoseconds: Go `time.Duration` counts int64 nanoseconds. -/
def nsPerSecond : Int := 1000000000

/-- `MinTTL = 5 * time.Minute` in nanoseconds. -/
def MinTTL : Int := 300 * nsPerSecond

/-- `MaxTTL = 24 * time.Hour` in nanoseconds. -/
def MaxTTL : Int := 86400 * nsPerSecond

/-- Go int64 two's-complement wraparound, applied where the source multiplies
`time.Duration(expiresIn) * time.Second` (a wrapping int64 product). -/
def wrap64 (n : Int) : Int := (n + 2 ^ 63) % 2 ^ 64 - 2 ^ 63

/-- The normalized request produced by a successful validation
(`validation.CreateSecretRequest`).  `expiresIn` is the resolved TTL as a
`time.Duration` (nanoseconds); a Go nil `Salt` slice is `[]`. -/
structure CreateSecretRequest where
  ciphertext : List Byte
  iv : List Byte
  salt : List Byte
  expiresIn : Int
  burnAfterRead : Bool
deriving DecidableEq, Repr

/-- `validation.ValidateCreateRequest`: decode and bounds-check ciphertext,
IV and optional salt, then range-check the TTL.  Mirrors the Go control flow
line by line, early error returns included. -/
def ValidateCreateRequest (ciphertextB64 ivB64 saltB64 : String) (expiresIn : Int)
    (maxSize : Nat) : Except VError CreateSecretRequest :=
  if ciphertextB64 = "" then .error .invalidCiphertext else
  match decodeB64 ciphertextB64.toList with
  | none => .error .invalidCiphertext
  | some ciphertext =>
    if ciphertext.length < MinSecretSize then .error .invalidCiphertext else
    if ciphertext.length > maxSize then .error .secretTooLarge else
    if ivB64 = "" then .error .invalidIV else
    match decodeB64 ivB64.toList with
    | none => .error .invalidIV
    | some iv =>
      if iv.length ≠ 12 then .error .invalidIV else
      match (if saltB64 = "" then Except.ok ([] : List Byte) else
             match decodeB64 saltB64.toList with
             | none => Except.error VError.invalidSalt
             | some salt =>
               if salt.length < 16 then Except.error VError.invalidSalt
               else Except.ok salt) with
      | .error e => .error e
      | .ok salt =>
        let ttl : Int := wrap64 (expiresIn * nsPerSecond)
        if ttl < MinTTL ∨ ttl > MaxTTL then .error .invalidTTL else
        .ok ⟨ciphertext, iv, salt, ttl, true⟩

/-- Membership in the character class `[A-Za-z0-9_-]` of `SecretIDPattern`. -/
def isIDChar (c : Char) : Bool :=
  (65 ≤ c.toNat && c.toNat ≤ 90) || (97 ≤ c.toNat && c.toNat ≤ 122) ||
  (48 ≤ c.toNat && c.toNat ≤ 57) || c == '_' || c == '-'

/-- `validation.ValidateSecretID`: empty check, then the anchored regex
`[A-Za-z0-9_-]` repeated exactly 22 times. -/
def ValidateSecretID (id : String) : Except VError Unit :=
  if id = "" then .error .invalidSecretID
  else if id.toList.length = 22 && id.toList.all isIDChar then .ok ()
  else .error .invalidSecretID

/-! ### Go error identity (the `errors.Is` slip in `GetSecret`)

`GetSecret` tests the scan error with
`errors.Is(err, errors.New("no rows in result set"))`.  For errors built by
`errors.New` (no `Is`/`Unwrap` methods), `errors.Is` compares error
*identity*: two separate `errors.New` allocations are never equal, whatever
their messages.  We model an error value as an allocation identity plus its
message. -/

structure GoError where
  allocId : Nat
  message : String
deriving DecidableEq, Repr

/-- `errors.Is` restricted to plain `errors.New` values: identity comparison
along a trivial (empty) unwrap chain. -/
def errorsIs (err target : GoError) : Bool := err.allocId == target.allocId

/-- `pgx.ErrNoRows`, the package-level error returned by `Scan` when the
query matched no row (allocated once in the pgx package). -/
def pgxErrNoRows : GoError := ⟨0, "no rows in result set"⟩

/-- The fresh `errors.New("no rows in result set")` allocated inside the
handler's `errors.Is` call: same message, distinct allocation. -/
def handlerNoRowsTarget : GoError := ⟨1, "no rows in result set"⟩

/-! ### Secrets table and API handlers (`handlers.go`) -/

/-- A row of the `secrets` table (`models.Secret` plus the raw byte
columns). -/
structure Secret where
  id : String
  ciphertext : List Byte
  iv : List Byte
  salt : List Byte
  expiresAt : Int
  burnAfterRead : Bool
  createdAt : Int
deriving DecidableEq, Repr

/-- The `secrets` table: its list of rows (unique ids are enforced by the
primary key at insert time). -/
abbrev Store := List Secret

/-- `SELECT ... FROM secrets WHERE id = $1`: the first (by the primary key,
only) row whose id matches. -/
def findSecret : Store → String → Option Secret
  | [], _ => none
  | s :: rest, id => if s.id = id then some s else findSecret rest id

/-- `DELETE FROM secrets WHERE id = $1`: every row whose id matches is
removed. -/
def deleteSecret : Store → String → Store
  | [], _ => []
  | s :: rest, id =>
      if s.id = id then deleteSecret rest id else s :: deleteSecret rest id

/-- The body of an HTTP response: an `ErrorResponse` message, a
`GetSecretResponse` (salt omitted when empty), a `CreateSecretResponse`, or
the empty 204 body. -/
inductive RespBody where
  | errorMsg (message : String)
  | secretData (ciphertext iv : List Char) (salt : Option (List Char))
  | createdId (id : String)
  | empty
deriving DecidableEq, Repr

structure HttpResponse where
  status : Nat
  body : RespBody
deriving DecidableEq, Repr

/-- `respondError(w, 404, "not found")`. -/
def resp404 : HttpResponse := ⟨404, .errorMsg "not found"⟩

/-- `respondError(w, 500, "database error")`. -/
def resp500db : HttpResponse := ⟨500, .errorMsg "database error"⟩

/-- `respondError(w, 500, "failed to store secret")` — the single response
`CreateSecret` gives for *any* insert error. -/
def resp500store : HttpResponse := ⟨500, .errorMsg "failed to store secret"⟩

/-- The status `CreateSecret` maps a validation error to: 413 for
`ErrSecretTooLarge`, else 400. -/
def vErrorStatus (e : VError) : Nat := if e = .secretTooLarge then 413 else 400

/-- The errors Postgres can raise on the `INSERT` in `CreateSecret`.  The
handler's `if err != nil` branch does not inspect `err` at all. -/
inductive InsertError where
  | duplicateKey
  | connectionFailure
deriving DecidableEq, Repr

/-- `CreateSecret`'s insert-error handling: one constant 500 response,
regardless of which error occurred. -/
def createInsertErrorResponse : InsertError → HttpResponse :=
  fun _ => resp500store

/-- `Handler.CreateSecret` at time `now` with generated id `generatedId`:
validate, then `INSERT`.  A duplicate primary key makes the insert fail;
the handler folds every insert failure into `resp500store`. -/
def CreateSecret (now : Int) (generatedId : String)
    (ciphertextB64 ivB64 saltB64 : String) (expiresIn : Int) (maxSize : Nat)
    (st : Store) : HttpResponse × Store :=
  match ValidateCreateRequest ciphertextB64 ivB64 saltB64 expiresIn maxSize with
  | .error e => (⟨vErrorStatus e, .errorMsg "validation failed"⟩, st)
  | .ok req =>
    match findSecret st generatedId with
    | some _ => (createInsertErrorResponse .duplicateKey, st)
    | none =>
        (⟨201, .createdId generatedId⟩,
         st ++ [⟨generatedId, req.ciphertext, req.iv, req.salt,
                 now + req.expiresIn, req.burnAfterRead, now⟩])

/-- `Handler.GetSecret` (atomic consume) at time `now`.  ID format failure
→ 404 before any query; then, inside the row-locking transaction: scan the
row (`errors.Is` against a fresh `errors.New` decides the no-rows branch),
lazily expire, or delete-and-return.  The commit is modelled as
succeeding. -/
def GetSecret (now : Int) (id : String) (st : Store) : HttpResponse × Store :=
  match ValidateSecretID id with
  | .error _ => (resp404, st)
  | .ok _ =>
    match findSecret st id with
    | none =>
        if errorsIs pgxErrNoRows handlerNoRowsTarget then (resp404, st)
        else (resp500db, st)
    | some secret =>
        if now > secret.expiresAt then
          (resp404, deleteSecret st id)
        else
          (⟨200, .secretData (encodeB64 secret.ciphertext) (encodeB64 secret.iv)
              (if secret.salt.length > 0 then some (encodeB64 secret.salt)
               else none)⟩,
           deleteSecret st id)

/-- `Handler.BurnSecret`: ID format failure → 404; otherwise an
unconditional `DELETE`, answering 404 when `RowsAffected() == 0` and 204
otherwise. -/
def BurnSecret (id : String) (st : Store) : HttpResponse × Store :=
  match ValidateSecretID id with
  | .error _ => (resp404, st)
  | .ok _ =>
    let deleted := deleteSecret st id
    if st.length - deleted.length = 0 then (resp404, deleted)
    else (⟨204, .empty⟩, deleted)

/-- `K` consume calls on the same id, serialized by the row lock (`FOR
UPDATE`): the storage engine runs them one after the other in some order,
each seeing the state the previous one committed. -/
def runGets (now : Int) (id : String) (st : Store) : Nat → List HttpResponse
  | 0 => []
  | k + 1 =>
      let step := GetSecret now id st
      step.1 :: runGets now id step.2 k

/-- Number of responses that carry the secret (HTTP 200). -/
def countOk (rs : List HttpResponse) : Nat :=
  (rs.filter fun r => r.status == 200).length

/-! ### Rate limiter (middleware `RateLimiter.allow`) -/

/-- The limiter's state: per-client timestamp lists (the
`map[string]*rateLimitEntry`), the configured maximum, and the window
(nanoseconds). -/
structure RateLimiter where
  requests : List (String × List Int)
  maxReq : Nat
  window : Int
deriving DecidableEq, Repr

/-- `rl.requests[ip] = entry` (map update / insert). -/
def mapSet (m : List (String × List Int)) (k : String) (v : List Int) :
    List (String × List Int) :=
  match m with
  | [] => [(k, v)]
  | (k', v') :: rest => if k' = k then (k, v) :: rest else (k', v') :: mapSet rest k v

/-- `RateLimiter.allow` at time `now`: first request for a key is admitted
and recorded; otherwise timestamps outside the window are dropped, the
request is rejected (and not recorded) when the surviving count reaches
`maxReq`, else admitted and recorded. -/
def RateLimiter.allow (rl : RateLimiter) (ip : String) (now : Int) :
    Bool × RateLimiter :=
  match rl.requests.lookup ip with
  | none => (true, { rl with requests := mapSet rl.requests ip [now] })
  | some entry =>
      let validRequests := entry.filter fun req => now - req < rl.window
      if rl.maxReq ≤ validRequests.length then
        (false, { rl with requests := mapSet rl.requests ip validRequests })
      else
        (true, { rl with requests := mapSet rl.requests ip (validRequests ++ [now]) })

/-- Feed a list of admission-check times for one client through the
limiter, collecting the verdicts. -/
def allowAll (rl : RateLimiter) (ip : String) : List Int → List Bool × RateLimiter
  | [] => ([], rl)
  | t :: ts =>
      let step := rl.allow ip t
      let rest := allowAll step.2 ip ts
      (step.1 :: rest.1, rest.2)

/-! ### Store lemmas -/

theorem findSecret_deleteSecret (st : Store) (id : String) :
    findSecret (deleteSecret st id) id = none := by
  induction st with
  | nil => rfl
  | cons s rest ih =>
      by_cases h : s.id = id
      · simpa [deleteSecret, h] using ih
      · simpa [deleteSecret, findSecret, h] using ih

/-- A consume on a store without the row leaves the store unchanged and
never answers 200 (it answers 404 on a malformed id, 500 otherwise — the
unreachable `errors.Is` branch). -/
theorem getSecret_absent (now : Int) (id : String) (st : Store)
    (h : findSecret st id = none) :
    (GetSecret now id st).1.status ≠ 200 ∧ (GetSecret now id st).2 = st := by
  unfold GetSecret
  cases hv : ValidateSecretID id with
  | error e => exact ⟨by simp [resp404], rfl⟩
  | ok u => rw [h]; exact ⟨by simp [errorsIs, pgxErrNoRows, handlerNoRowsTarget, resp500db], by
      simp [errorsIs, pgxErrNoRows, handlerNoRowsTarget]⟩

/-- A consume that answers 200 has deleted the row. -/
theorem getSecret_200_deletes (now : Int) (id : String) (st : Store)
    (h : (GetSecret now id st).1.status = 200) :
    (GetSecret now id st).2 = deleteSecret st id := by
  unfold GetSecret at h ⊢
  cases hv : ValidateSecretID id with
  | error e => rw [hv] at h; simp [resp404] at h
  | ok u =>
      rw [hv] at h
      cases hf : findSecret st id with
      | none =>
          rw [hf] at h
          simp [errorsIs, pgxErrNoRows, handlerNoRowsTarget, resp500db] at h
      | some s =>
          rw [hf] at h
          dsimp only at h ⊢
          by_cases hexp : now > s.expiresAt
          · rw [if_pos hexp] at h; simp [resp404] at h
          · rw [if_neg hexp]

/-- Once the row is gone, no later consume in the sequence answers 200. -/
theorem runGets_absent (now : Int) (id : String) (st : Store) (k : Nat)
    (h : findSecret st id = none) : countOk (runGets now id st k) = 0 := by
  induction k generalizing st with
  | zero => rfl
  | succ k ih =>
      have habs := getSecret_absent now id st h
      simp only [runGets, countOk, List.filter]
      have hne : ((GetSecret now id st).1.status == 200) = false := by
        simpa using habs.1
      rw [hne, habs.2]
      exact ih st h

theorem countOk_cons (r : HttpResponse) (rs : List HttpResponse) :
    countOk (r :: rs) = (if r.status == 200 then 1 else 0) + countOk rs := by
  simp only [countOk, List.filter_cons]
  by_cases h : (r.status == 200) = true
  · simp [h, Nat.add_comm]
  · simp [h]

/-! ### Claims -/

/-- C1: across any number of serialized consume calls on one id, at most one
observes the secret (at most one 200) — this part of the claim holds.  The
"every other call observes not-found" part does not: on a created secret,
two consume calls yield one 200 and then a 500 (`resp500db`), not a 404,
because the handler's no-rows test `errors.Is(err, errors.New(...))` can
never be true. -/
theorem claim_C1_at_most_once_consume :
    (∀ (now : Int) (id : String) (st : Store) (k : Nat),
        countOk (runGets now id st k) ≤ 1)
    ∧ runGets 0 "aaaaaaaaaaaaaaaaaaaaaa"
        [⟨"aaaaaaaaaaaaaaaaaaaaaa", [mkByte 1], List.replicate 12 (mkByte 0), [],
          MinTTL, true, 0⟩] 2
      = [⟨200, .secretData (encodeB64 [mkByte 1])
            (encodeB64 (List.replicate 12 (mkByte 0))) none⟩, resp500db] := by
  constructor
  · intro now id st k
    induction k generalizing st with
    | zero => simp [runGets, countOk]
    | succ k ih =>
        simp only [runGets]
        rw [countOk_cons]
        by_cases h200 : (GetSecret now id st).1.status = 200
        · have hdel := getSecret_200_deletes now id st h200
          have hzero : countOk (runGets now id (GetSecret now id st).2 k) = 0 := by
            rw [hdel]
            exact runGets_absent _ _ _ _ (findSecret_deleteSecret st id)
          rw [hzero]
          simp [h200]
        · have : ((GetSecret now id st).1.status == 200) = false := by
            simpa using h200
          rw [this]
          simpa using ih (GetSecret now id st).2
  · decide

/-- C2: the claim says a consume on a well-formed id with no stored row
answers 404.  The code instead answers 500 `database error` and leaves the
store unchanged: the no-rows branch compares the scan error against a fresh
`errors.New` value with `errors.Is`, which is never true, so the 404 branch
is unreachable. -/
theorem claim_C2_absent_row_answers_500 (now : Int) (id : String) (st : Store)
    (hid : ValidateSecretID id = .ok ()) (habs : findSecret st id = none) :
    GetSecret now id st = (resp500db, st) := by
  unfold GetSecret
  rw [hid, habs]
  simp [errorsIs, pgxErrNoRows, handlerNoRowsTarget]

theorem claim_C2_witness :
    GetSecret 0 "aaaaaaaaaaaaaaaaaaaaaa" [] = (resp500db, []) :=
  claim_C2_absent_row_answers_500 0 "aaaaaaaaaaaaaaaaaaaaaa" [] (by decide) rfl

/-- C3: a consume that finds the row past its `expires_at` deletes it,
commits, and answers 404; afterwards the row is gone (the ciphertext is
never part of the response). -/
theorem claim_C3_lazy_expiry (now : Int) (id : String) (st : Store) (s : Secret)
    (hid : ValidateSecretID id = .ok ()) (hrow : findSecret st id = some s)
    (hexp : now > s.expiresAt) :
    GetSecret now id st = (resp404, deleteSecret st id)
    ∧ findSecret (GetSecret now id st).2 id = none := by
  have hmain : GetSecret now id st = (resp404, deleteSecret st id) := by
    unfold GetSecret
    rw [hid, hrow]
    dsimp only
    rw [if_pos hexp]
  exact ⟨hmain, by rw [hmain]; exact findSecret_deleteSecret st id⟩

theorem claim_C3_witness :
    GetSecret (MinTTL + 1) "aaaaaaaaaaaaaaaaaaaaaa"
        [⟨"aaaaaaaaaaaaaaaaaaaaaa", [mkByte 1], List.replicate 12 (mkByte 0), [],
          MinTTL, true, 0⟩]
      = (resp404,
         deleteSecret
           [⟨"aaaaaaaaaaaaaaaaaaaaaa", [mkByte 1], List.replicate 12 (mkByte 0), [],
             MinTTL, true, 0⟩] "aaaaaaaaaaaaaaaaaaaaaa")
    ∧ findSecret
        (GetSecret (MinTTL + 1) "aaaaaaaaaaaaaaaaaaaaaa"
          [⟨"aaaaaaaaaaaaaaaaaaaaaa", [mkByte 1], List.replicate 12 (mkByte 0), [],
            MinTTL, true, 0⟩]).2 "aaaaaaaaaaaaaaaaaaaaaa" = none :=
  claim_C3_lazy_expiry (MinTTL + 1) "aaaaaaaaaaaaaaaaaaaaaa"
    [⟨"aaaaaaaaaaaaaaaaaaaaaa", [mkByte 1], List.replicate 12 (mkByte 0), [],
      MinTTL, true, 0⟩]
    ⟨"aaaaaaaaaaaaaaaaaaaaaa", [mkByte 1], List.replicate 12 (mkByte 0), [],
      MinTTL, true, 0⟩
    (by decide) (by decide) (by decide)

/-! ### Validator evaluation on encoded inputs -/

/-- The Go string holding the given characters (e.g. the output of
`base64.StdEncoding.EncodeToString`). -/
def stringOfChars (cs : List Char) : String := String.mk cs

theorem stringOfChars_toList (cs : List Char) : (stringOfChars cs).toList = cs := rfl

theorem stringOfChars_eq_empty_iff (cs : List Char) :
    stringOfChars cs = "" ↔ cs = [] := by
  constructor
  · intro h
    exact congrArg String.toList h
  · intro h
    rw [h]
    rfl

theorem encodeB64_ne_nil (bs : List Byte) (h : bs ≠ []) : encodeB64 bs ≠ [] := by
  match bs with
  | [] => exact absurd rfl h
  | [a] => simp [encodeB64]
  | [a, b] => simp [encodeB64]
  | a :: b :: c :: rest => simp [encodeB64]

/-- What `ValidateCreateRequest` computes when fed the base64 encodings of
byte buffers `ct`, `iv`, `salt` (with `[]` encoding to the empty string,
i.e. an absent salt), for nonempty `ct`. -/
theorem ValidateCreateRequest_encoded (ct iv salt : List Byte) (e : Int)
    (maxSize : Nat) (hct : ct ≠ []) :
    ValidateCreateRequest (stringOfChars (encodeB64 ct))
        (stringOfChars (encodeB64 iv)) (stringOfChars (encodeB64 salt)) e maxSize
      = if ct.length > maxSize then .error .secretTooLarge
        else if iv.length ≠ 12 then .error .invalidIV
        else if salt ≠ [] ∧ salt.length < 16 then .error .invalidSalt
        else if wrap64 (e * nsPerSecond) < MinTTL ∨ wrap64 (e * nsPerSecond) > MaxTTL
        then .error .invalidTTL
        else .ok ⟨ct, iv, salt, wrap64 (e * nsPerSecond), true⟩ := by
  unfold ValidateCreateRequest
  have hctB : ¬ stringOfChars (encodeB64 ct) = "" := by
    rw [stringOfChars_eq_empty_iff]
    exact encodeB64_ne_nil ct hct
  rw [if_neg hctB, stringOfChars_toList, decodeB64_encodeB64]
  dsimp only
  have hlen : ¬ ct.length < MinSecretSize := by
    have := List.length_pos.mpr hct
    simp only [MinSecretSize]
    omega
  rw [if_neg hlen]
  by_cases hbig : ct.length > maxSize
  · rw [if_pos hbig, if_pos hbig]
  · rw [if_neg hbig, if_neg hbig]
    by_cases hivE : iv = []
    · subst hivE
      have : stringOfChars (encodeB64 ([] : List Byte)) = "" := rfl
      rw [if_pos this, if_pos (by simp : (([] : List Byte).length ≠ 12))]
    · have hivB : ¬ stringOfChars (encodeB64 iv) = "" := by
        rw [stringOfChars_eq_empty_iff]
        exact encodeB64_ne_nil iv hivE
      rw [if_neg hivB, stringOfChars_toList, decodeB64_encodeB64]
      dsimp only
      by_cases hiv12 : iv.length ≠ 12
      · rw [if_pos hiv12, if_pos hiv12]
      · rw [if_neg hiv12, if_neg hiv12]
        by_cases hsE : salt = []
        · subst hsE
          have hsB : stringOfChars (encodeB64 ([] : List Byte)) = "" := rfl
          rw [if_pos hsB]
          dsimp only
          rw [if_neg (by simp : ¬(([] : List Byte) ≠ [] ∧ ([] : List Byte).length < 16))]
        · have hsB : ¬ stringOfChars (encodeB64 salt) = "" := by
            rw [stringOfChars_eq_empty_iff]
            exact encodeB64_ne_nil salt hsE
          rw [if_neg hsB, stringOfChars_toList, decodeB64_encodeB64]
          dsimp only
          by_cases hs16 : salt.length < 16
          · rw [if_pos hs16, if_pos ⟨hsE, hs16⟩]
          · rw [if_neg hs16, if_neg (by simp [hs16])]

/-- The validator accepted the request (returned a normalized request
rather than an error). -/
def acceptsRequest : Except VError CreateSecretRequest → Bool
  | .ok _ => true
  | .error _ => false

/-- `wrap64` is the identity on products that fit in int64 — i.e. the Go
multiplication `time.Duration(expiresIn) * time.Second` only wraps outside
this range. -/
theorem wrap64_eq_self (n : Int) (hlo : -(2 ^ 63) ≤ n) (hhi : n < 2 ^ 63) :
    wrap64 n = n := by
  unfold wrap64
  omega

/-- If a store already holds a row under `id`, a later consume-free lookup
after appending a fresh row still finds nothing in the old part. -/
theorem findSecret_append_right (st : Store) (id : String) (s : Secret)
    (h : findSecret st id = none) :
    findSecret (st ++ [s]) id = findSecret [s] id := by
  induction st with
  | nil => rfl
  | cons t rest ih =>
      by_cases ht : t.id = id
      · simp [findSecret, ht] at h
      · simp only [List.cons_append, findSecret, if_neg ht] at h ⊢
        exact ih h

/-- C4: the claim says a Create hitting an existing primary key surfaces a
distinguishable `DuplicateID` condition.  It does not: the handler's insert
error branch produces the same generic 500 response for a duplicate key as
for a connectivity failure — here evaluated at a concrete duplicate
insert. -/
theorem claim_C4_counterexample :
    createInsertErrorResponse .duplicateKey
      = createInsertErrorResponse .connectionFailure
    ∧ CreateSecret 0 "aaaaaaaaaaaaaaaaaaaaaa" "AA==" "AAAAAAAAAAAAAAAA" "" 300 32768
        [⟨"aaaaaaaaaaaaaaaaaaaaaa", [mkByte 0], List.replicate 12 (mkByte 0), [],
          MinTTL, true, 0⟩]
      = (resp500store,
         [⟨"aaaaaaaaaaaaaaaaaaaaaa", [mkByte 0], List.replicate 12 (mkByte 0), [],
           MinTTL, true, 0⟩]) :=
  ⟨rfl, by decide⟩

/-- C4 (amended): when the generated id already exists, the insert fails and
the handler answers with the one generic 500 storage-failure response,
identical to the response for any other insert error; no `DuplicateID`
condition is surfaced. -/
theorem claim_C4_duplicate_id (now : Int) (id ctB64 ivB64 saltB64 : String)
    (e : Int) (maxSize : Nat) (st : Store) (s : Secret)
    (hdup : findSecret st id = some s)
    (hok : acceptsRequest (ValidateCreateRequest ctB64 ivB64 saltB64 e maxSize) = true) :
    CreateSecret now id ctB64 ivB64 saltB64 e maxSize st = (resp500store, st)
    ∧ createInsertErrorResponse .duplicateKey
        = createInsertErrorResponse .connectionFailure := by
  refine ⟨?_, rfl⟩
  unfold CreateSecret
  cases hv : ValidateCreateRequest ctB64 ivB64 saltB64 e maxSize with
  | error e2 => rw [hv] at hok; simp [acceptsRequest] at hok
  | ok req =>
      rw [hdup]
      rfl

theorem claim_C4_witness :
    CreateSecret 0 "aaaaaaaaaaaaaaaaaaaaaa" "AA==" "AAAAAAAAAAAAAAAA" "" 300 32768
        [⟨"aaaaaaaaaaaaaaaaaaaaaa", [mkByte 0], List.replicate 12 (mkByte 0), [],
          MinTTL, true, 0⟩]
      = (resp500store,
         [⟨"aaaaaaaaaaaaaaaaaaaaaa", [mkByte 0], List.replicate 12 (mkByte 0), [],
           MinTTL, true, 0⟩])
    ∧ createInsertErrorResponse .duplicateKey
        = createInsertErrorResponse .connectionFailure :=
  claim_C4_duplicate_id 0 "aaaaaaaaaaaaaaaaaaaaaa" "AA==" "AAAAAAAAAAAAAAAA" "" 300
    32768
    [⟨"aaaaaaaaaaaaaaaaaaaaaa", [mkByte 0], List.replicate 12 (mkByte 0), [],
      MinTTL, true, 0⟩]
    ⟨"aaaaaaaaaaaaaaaaaaaaaa", [mkByte 0], List.replicate 12 (mkByte 0), [],
      MinTTL, true, 0⟩
    (by decide) (by decide)

/-- C5: the claim also says every value outside `[300, 86400]` is rejected.
It is not: `time.Duration(expiresIn) * time.Second` wraps in int64, and
`expires_in = 18446744374` (far above 86400) wraps to about 300.29 seconds
and is accepted. -/
theorem claim_C5_counterexample :
    (18446744374 : Int) > 86400
    ∧ acceptsRequest
        (ValidateCreateRequest "AA==" "AAAAAAAAAAAAAAAA" "" 18446744374 32768)
      = true := by
  exact ⟨by decide, by decide⟩

/-- C5 (amended): on an otherwise-valid request, TTLs of exactly 300 and
exactly 86400 seconds are accepted and any value outside `[300, 86400]`
whose nanosecond product fits in int64 is rejected with `InvalidTTL` —
values whose product overflows int64 can wrap into the accepted range (see
the counterexample). -/
theorem claim_C5_ttl_boundary (e : Int) (hlo : -(2 ^ 63) ≤ e * nsPerSecond)
    (hhi : e * nsPerSecond < 2 ^ 63) :
    ((300 ≤ e ∧ e ≤ 86400) →
        acceptsRequest
          (ValidateCreateRequest (stringOfChars (encodeB64 [mkByte 0]))
            (stringOfChars (encodeB64 (List.replicate 12 (mkByte 0)))) "" e 32768)
          = true)
    ∧ ((e < 300 ∨ e > 86400) →
        ValidateCreateRequest (stringOfChars (encodeB64 [mkByte 0]))
            (stringOfChars (encodeB64 (List.replicate 12 (mkByte 0)))) "" e 32768
          = .error .invalidTTL) := by
  have hsalt : ("" : String) = stringOfChars (encodeB64 ([] : List Byte)) := rfl
  rw [hsalt]
  have hval := ValidateCreateRequest_encoded [mkByte 0]
    (List.replicate 12 (mkByte 0)) [] e 32768 (by simp)
  rw [wrap64_eq_self _ hlo hhi] at hval
  rw [if_neg (by simp : ¬ ([mkByte 0] : List Byte).length > 32768),
      if_neg (by simp : ¬ (List.replicate 12 (mkByte 0)).length ≠ 12),
      if_neg (by simp : ¬ (([] : List Byte) ≠ [] ∧ ([] : List Byte).length < 16))]
    at hval
  rw [hval]
  constructor
  · intro he
    rw [if_neg (by simp only [MinTTL, MaxTTL, nsPerSecond]; omega)]
    rfl
  · intro he
    rw [if_pos (by simp only [MinTTL, MaxTTL, nsPerSecond]; omega)]

theorem claim_C5_witness :
    acceptsRequest
      (ValidateCreateRequest (stringOfChars (encodeB64 [mkByte 0]))
        (stringOfChars (encodeB64 (List.replicate 12 (mkByte 0)))) "" 300 32768)
      = true :=
  (claim_C5_ttl_boundary 300 (by decide) (by decide)).1 (by decide)

/-- C6: a secret created from base64-encoded buffers and then successfully
consumed comes back byte-for-byte: the response carries the base64 encoding
of exactly the stored buffers, and decoding recovers the bytes supplied at
creation (absent salt round-trips as absent). -/
theorem claim_C6_round_trip (now now2 e : Int) (maxSize : Nat) (id : String)
    (ct iv salt : List Byte) (st : Store)
    (hct0 : ct ≠ []) (hcthi : ct.length ≤ maxSize)
    (hiv : iv.length = 12)
    (hsalt : salt = [] ∨ 16 ≤ salt.length)
    (helo : 300 ≤ e) (hehi : e ≤ 86400)
    (hid : ValidateSecretID id = .ok ())
    (hfresh : findSecret st id = none)
    (hread : ¬ now2 > now + e * nsPerSecond) :
    ∃ st' : Store,
      CreateSecret now id (stringOfChars (encodeB64 ct))
          (stringOfChars (encodeB64 iv)) (stringOfChars (encodeB64 salt)) e maxSize st
        = (⟨201, .createdId id⟩, st')
      ∧ (GetSecret now2 id st').1
        = ⟨200, .secretData (encodeB64 ct) (encodeB64 iv)
            (if salt.length > 0 then some (encodeB64 salt) else none)⟩
      ∧ decodeB64 (encodeB64 ct) = some ct
      ∧ decodeB64 (encodeB64 iv) = some iv
      ∧ decodeB64 (encodeB64 salt) = some salt := by
  have hval := ValidateCreateRequest_encoded ct iv salt e maxSize hct0
  have hwrap : wrap64 (e * nsPerSecond) = e * nsPerSecond :=
    wrap64_eq_self _ (by simp only [nsPerSecond]; omega)
      (by simp only [nsPerSecond]; omega)
  rw [hwrap] at hval
  have hcond3 : ¬ (salt ≠ [] ∧ salt.length < 16) := by
    rcases hsalt with h | h
    · simp [h]
    · simp only [ne_eq, not_and, not_lt]
      intro _
      omega
  rw [if_neg (by omega : ¬ ct.length > maxSize),
      if_neg (by omega : ¬ iv.length ≠ 12),
      if_neg hcond3,
      if_neg (by simp only [MinTTL, MaxTTL, nsPerSecond]; omega)] at hval
  refine ⟨st ++ [⟨id, ct, iv, salt, now + e * nsPerSecond, true, now⟩], ?_, ?_,
    decodeB64_encodeB64 ct, decodeB64_encodeB64 iv, decodeB64_encodeB64 salt⟩
  · unfold CreateSecret
    rw [hval]
    dsimp only
    rw [hfresh]
  · have hfind : findSecret (st ++ [⟨id, ct, iv, salt, now + e * nsPerSecond, true, now⟩]) id
        = some ⟨id, ct, iv, salt, now + e * nsPerSecond, true, now⟩ := by
      rw [findSecret_append_right st id _ hfresh]
      simp [findSecret]
    unfold GetSecret
    rw [hid, hfind]
    dsimp only
    rw [if_neg hread]

theorem claim_C6_witness :
    ∃ st' : Store,
      CreateSecret 0 "aaaaaaaaaaaaaaaaaaaaaa"
          (stringOfChars (encodeB64 [mkByte 1, mkByte 2]))
          (stringOfChars (encodeB64 (List.replicate 12 (mkByte 0))))
          (stringOfChars (encodeB64 ([] : List Byte))) 300 32768 []
        = (⟨201, .createdId "aaaaaaaaaaaaaaaaaaaaaa"⟩, st')
      ∧ (GetSecret 5 "aaaaaaaaaaaaaaaaaaaaaa" st').1
        = ⟨200, .secretData (encodeB64 [mkByte 1, mkByte 2])
            (encodeB64 (List.replicate 12 (mkByte 0)))
            (if ([] : List Byte).length > 0 then some (encodeB64 ([] : List Byte))
             else none)⟩
      ∧ decodeB64 (encodeB64 [mkByte 1, mkByte 2]) = some [mkByte 1, mkByte 2]
      ∧ decodeB64 (encodeB64 (List.replicate 12 (mkByte 0)))
          = some (List.replicate 12 (mkByte 0))
      ∧ decodeB64 (encodeB64 ([] : List Byte)) = some [] :=
  claim_C6_round_trip 0 5 300 32768 "aaaaaaaaaaaaaaaaaaaaaa"
    [mkByte 1, mkByte 2] (List.replicate 12 (mkByte 0)) [] []
    (by decide) (by decide) (by decide) (Or.inl rfl) (by decide) (by decide)
    (by decide) rfl (by decide)

/-- C7: a decoded ciphertext of exactly `maxSize` bytes is accepted, one of
`maxSize + 1` bytes is rejected with `ErrSecretTooLarge` and mapped to HTTP
413 by `CreateSecret`, and a 0-byte ciphertext (whose only base64 encoding
is the empty string) is rejected with `InvalidCiphertext`. -/
theorem claim_C7_size_ceiling (now : Int) (id : String) (st : Store)
    (maxSize : Nat) (e : Int) (ct ctBig iv : List Byte)
    (hm : 1 ≤ maxSize)
    (hct : ct.length = maxSize) (hbig : ctBig.length = maxSize + 1)
    (hiv : iv.length = 12) (helo : 300 ≤ e) (hehi : e ≤ 86400) :
    acceptsRequest
      (ValidateCreateRequest (stringOfChars (encodeB64 ct))
        (stringOfChars (encodeB64 iv)) "" e maxSize) = true
    ∧ ValidateCreateRequest (stringOfChars (encodeB64 ctBig))
        (stringOfChars (encodeB64 iv)) "" e maxSize = .error .secretTooLarge
    ∧ (CreateSecret now id (stringOfChars (encodeB64 ctBig))
        (stringOfChars (encodeB64 iv)) "" e maxSize st).1.status = 413
    ∧ ValidateCreateRequest "" (stringOfChars (encodeB64 iv)) "" e maxSize
      = .error .invalidCiphertext := by
  have hsalt : ("" : String) = stringOfChars (encodeB64 ([] : List Byte)) := rfl
  have hct0 : ct ≠ [] := by
    intro h
    rw [h] at hct
    simp at hct
    omega
  have hbig0 : ctBig ≠ [] := by
    intro h
    rw [h] at hbig
    simp at hbig
  have hwrap : wrap64 (e * nsPerSecond) = e * nsPerSecond :=
    wrap64_eq_self _ (by simp only [nsPerSecond]; omega)
      (by simp only [nsPerSecond]; omega)
  have hvalSmall := ValidateCreateRequest_encoded ct iv [] e maxSize hct0
  have hvalBig := ValidateCreateRequest_encoded ctBig iv [] e maxSize hbig0
  rw [hwrap] at hvalSmall
  rw [if_neg (by omega : ¬ ct.length > maxSize),
      if_neg (by omega : ¬ iv.length ≠ 12),
      if_neg (by simp : ¬ (([] : List Byte) ≠ [] ∧ ([] : List Byte).length < 16)),
      if_neg (by simp only [MinTTL, MaxTTL, nsPerSecond]; omega)] at hvalSmall
  rw [if_pos (by omega : ctBig.length > maxSize)] at hvalBig
  refine ⟨?_, ?_, ?_, ?_⟩
  · rw [hsalt, hvalSmall]
    rfl
  · rw [hsalt, hvalBig]
  · unfold CreateSecret
    rw [hsalt, hvalBig]
    rfl
  · rfl

theorem claim_C7_witness :
    acceptsRequest
      (ValidateCreateRequest (stringOfChars (encodeB64 [mkByte 7, mkByte 8]))
        (stringOfChars (encodeB64 (List.replicate 12 (mkByte 0)))) "" 300 2) = true
    ∧ ValidateCreateRequest
        (stringOfChars (encodeB64 [mkByte 7, mkByte 8, mkByte 9]))
        (stringOfChars (encodeB64 (List.replicate 12 (mkByte 0)))) "" 300 2
      = .error .secretTooLarge
    ∧ (CreateSecret 0 "aaaaaaaaaaaaaaaaaaaaaa"
        (stringOfChars (encodeB64 [mkByte 7, mkByte 8, mkByte 9]))
        (stringOfChars (encodeB64 (List.replicate 12 (mkByte 0)))) "" 300 2 []).1.status
      = 413
    ∧ ValidateCreateRequest ""
        (stringOfChars (encodeB64 (List.replicate 12 (mkByte 0)))) "" 300 2
      = .error .invalidCiphertext :=
  claim_C7_size_ceiling 0 "aaaaaaaaaaaaaaaaaaaaaa" [] 2 300
    [mkByte 7, mkByte 8] [mkByte 7, mkByte 8, mkByte 9]
    (List.replicate 12 (mkByte 0))
    (by decide) (by decide) (by decide) (by decide) (by decide) (by decide)

/-- C8: any IV whose decoded length differs from 12 bytes is rejected with
`InvalidIV` (the empty IV hits the `IV is required` branch, with the same
sentinel); a 12-byte IV is accepted. -/
theorem claim_C8_iv_boundary (maxSize : Nat) (e : Int) (ct iv12 ivBad : List Byte)
    (hct0 : ct ≠ []) (hcthi : ct.length ≤ maxSize)
    (hiv : iv12.length = 12) (hbad : ivBad.length ≠ 12)
    (helo : 300 ≤ e) (hehi : e ≤ 86400) :
    acceptsRequest
      (ValidateCreateRequest (stringOfChars (encodeB64 ct))
        (stringOfChars (encodeB64 iv12)) "" e maxSize) = true
    ∧ ValidateCreateRequest (stringOfChars (encodeB64 ct))
        (stringOfChars (encodeB64 ivBad)) "" e maxSize = .error .invalidIV := by
  have hsalt : ("" : String) = stringOfChars (encodeB64 ([] : List Byte)) := rfl
  have hwrap : wrap64 (e * nsPerSecond) = e * nsPerSecond :=
    wrap64_eq_self _ (by simp only [nsPerSecond]; omega)
      (by simp only [nsPerSecond]; omega)
  have hvalGood := ValidateCreateRequest_encoded ct iv12 [] e maxSize hct0
  have hvalBad := ValidateCreateRequest_encoded ct ivBad [] e maxSize hct0
  rw [hwrap] at hvalGood
  rw [if_neg (by omega : ¬ ct.length > maxSize),
      if_neg (by omega : ¬ iv12.length ≠ 12),
      if_neg (by simp : ¬ (([] : List Byte) ≠ [] ∧ ([] : List Byte).length < 16)),
      if_neg (by simp only [MinTTL, MaxTTL, nsPerSecond]; omega)] at hvalGood
  rw [if_neg (by omega : ¬ ct.length > maxSize), if_pos hbad] at hvalBad
  exact ⟨by rw [hsalt, hvalGood]; rfl, by rw [hsalt, hvalBad]⟩

theorem claim_C8_witness :
    acceptsRequest
      (ValidateCreateRequest (stringOfChars (encodeB64 [mkByte 1]))
        (stringOfChars (encodeB64 (List.replicate 12 (mkByte 0)))) "" 300 32768)
      = true
    ∧ ValidateCreateRequest (stringOfChars (encodeB64 [mkByte 1]))
        (stringOfChars (encodeB64 (List.replicate 11 (mkByte 0)))) "" 300 32768
      = .error .invalidIV :=
  claim_C8_iv_boundary 32768 300 [mkByte 1] (List.replicate 12 (mkByte 0))
    (List.replicate 11 (mkByte 0))
    (by decide) (by decide) (by decide) (by decide) (by decide) (by decide)

/-! ### Rate limiter lemmas -/

theorem allow_within (N : Nat) (W : Int) (ip : String) (l : List Int) (t : Int)
    (hcnt : l.length < N) (hin : ∀ x ∈ l, t - x < W) :
    RateLimiter.allow ⟨[(ip, l)], N, W⟩ ip t = (true, ⟨[(ip, l ++ [t])], N, W⟩) := by
  unfold RateLimiter.allow
  have hl : List.lookup ip [(ip, l)] = some l := by simp [List.lookup]
  rw [hl]
  dsimp only
  have hf : l.filter (fun req => decide (t - req < W)) = l :=
    List.filter_eq_self.mpr fun a ha => decide_eq_true (hin a ha)
  rw [hf, if_neg (by omega : ¬ N ≤ l.length)]
  simp [mapSet]

theorem allow_reject (N : Nat) (W : Int) (ip : String) (l : List Int) (t : Int)
    (hcnt : N ≤ l.length) (hin : ∀ x ∈ l, t - x < W) :
    RateLimiter.allow ⟨[(ip, l)], N, W⟩ ip t = (false, ⟨[(ip, l)], N, W⟩) := by
  unfold RateLimiter.allow
  have hl : List.lookup ip [(ip, l)] = some l := by simp [List.lookup]
  rw [hl]
  dsimp only
  have hf : l.filter (fun req => decide (t - req < W)) = l :=
    List.filter_eq_self.mpr fun a ha => decide_eq_true (hin a ha)
  rw [hf, if_pos hcnt]
  simp [mapSet]

theorem allow_after_window (N : Nat) (W : Int) (ip : String) (l : List Int)
    (t : Int) (hN : 1 ≤ N) (hout : ∀ x ∈ l, W ≤ t - x) :
    RateLimiter.allow ⟨[(ip, l)], N, W⟩ ip t = (true, ⟨[(ip, [t])], N, W⟩) := by
  unfold RateLimiter.allow
  have hl : List.lookup ip [(ip, l)] = some l := by simp [List.lookup]
  rw [hl]
  dsimp only
  have hf : l.filter (fun req => decide (t - req < W)) = [] := by
    rw [List.filter_eq_nil_iff]
    intro a ha
    simp only [decide_eq_true_eq, not_lt]
    exact hout a ha
  rw [hf, if_neg (by simp; omega : ¬ N ≤ ([] : List Int).length)]
  simp [mapSet]

/-- Running admission checks whose times all lie inside one window span, on
a single-key state with spare capacity, admits every check and appends each
timestamp. -/
theorem allowAll_within (N : Nat) (W : Int) (ip : String) (a : Int) :
    ∀ (ts l : List Int), l.length + ts.length ≤ N →
      (∀ x ∈ l, a ≤ x ∧ x < a + W) → (∀ x ∈ ts, a ≤ x ∧ x < a + W) →
      allowAll ⟨[(ip, l)], N, W⟩ ip ts
        = (List.replicate ts.length true, ⟨[(ip, l ++ ts)], N, W⟩)
  | [], l, _, _, _ => by simp [allowAll]
  | t :: ts, l, hlen, hl, hts => by
      have htmem := hts t (List.mem_cons_self t ts)
      have hstep := allow_within N W ip l t
        (by simp at hlen; omega)
        (fun x hx => by
          have h1 := hl x hx
          omega)
      simp only [allowAll, hstep]
      have ih := allowAll_within N W ip a ts (l ++ [t])
        (by simp at hlen ⊢; omega)
        (by
          intro x hx
          rw [List.mem_append] at hx
          rcases hx with h | h
          · exact hl x h
          · simp at h
            subst h
            exact htmem)
        (fun x hx => hts x (List.mem_cons_of_mem t hx))
      rw [ih]
      simp [List.replicate_succ]

/-- C9: starting from an empty limiter with maximum `N ≥ 1` and window `W`,
`N` admission checks inside one window span are all admitted, an
`(N+1)`-th check inside the same span is rejected, and a check made a full
window after every recorded request is admitted again. -/
theorem claim_C9_sliding_window (N : Nat) (W : Int) (ip : String) (a : Int)
    (ts : List Int) (tRej tNew : Int)
    (hN : 1 ≤ N) (hlen : ts.length = N)
    (hts : ∀ x ∈ ts, a ≤ x ∧ x < a + W)
    (hRej : a ≤ tRej ∧ tRej < a + W)
    (hNew : ∀ x ∈ ts, W ≤ tNew - x) :
    (allowAll ⟨[], N, W⟩ ip ts).1 = List.replicate N true
    ∧ ((allowAll ⟨[], N, W⟩ ip ts).2.allow ip tRej).1 = false
    ∧ (((allowAll ⟨[], N, W⟩ ip ts).2.allow ip tRej).2.allow ip tNew).1 = true := by
  obtain ⟨t1, rest, rfl⟩ : ∃ t1 rest, ts = t1 :: rest := by
    cases ts with
    | nil => simp at hlen; omega
    | cons x xs => exact ⟨x, xs, rfl⟩
  have h0 : RateLimiter.allow ⟨[], N, W⟩ ip t1 = (true, ⟨[(ip, [t1])], N, W⟩) := rfl
  have hseq := allowAll_within N W ip a rest [t1]
    (by simp at hlen ⊢; omega)
    (by
      intro x hx
      simp at hx
      subst hx
      exact hts _ (List.mem_cons_self _ rest))
    (fun x hx => hts x (List.mem_cons_of_mem t1 hx))
  simp only [allowAll, h0, hseq]
  have hfull : (([t1] : List Int) ++ rest) = t1 :: rest := rfl
  rw [hfull]
  have hrej := allow_reject N W ip (t1 :: rest) tRej
    (by simp at hlen ⊢; omega)
    (fun x hx => by
      have := hts x hx
      omega)
  have hnew := allow_after_window N W ip (t1 :: rest) tNew hN hNew
  refine ⟨?_, ?_, ?_⟩
  · have : rest.length + 1 = N := by simpa using hlen
    rw [← this]
    simp [List.replicate_succ]
  · rw [hrej]
  · rw [hrej]
    rw [hnew]

theorem claim_C9_witness :
    (allowAll ⟨[], 2, 10⟩ "1.2.3.4" [0, 1]).1 = List.replicate 2 true
    ∧ ((allowAll ⟨[], 2, 10⟩ "1.2.3.4" [0, 1]).2.allow "1.2.3.4" 2).1 = false
    ∧ (((allowAll ⟨[], 2, 10⟩ "1.2.3.4" [0, 1]).2.allow "1.2.3.4" 2).2.allow
        "1.2.3.4" 11).1 = true :=
  claim_C9_sliding_window 2 10 "1.2.3.4" 0 [0, 1] 2 11
    (by decide) (by decide) (by decide) (by decide) (by decide)

/-- C10: an id that does not match `^[A-Za-z0-9_-]{22}$` (the empty string
included) makes both `GetSecret` and `BurnSecret` answer 404 with the store
untouched — the claim's first half, which holds.  Its "indistinguishable
from an absent secret" half fails for GET: an absent secret under a
well-formed id answers 500, not 404 (the dead `errors.Is` branch), so the
two responses differ. -/
theorem claim_C10_malformed_id (now : Int) (id : String) (st : Store)
    (hbad : ¬ (id.toList.length = 22 ∧ ∀ c ∈ id.toList, isIDChar c = true)) :
    GetSecret now id st = (resp404, st) ∧ BurnSecret id st = (resp404, st)
    ∧ GetSecret 0 "aaaaaaaaaaaaaaaaaaaaaa" ([] : Store) = (resp500db, ([] : Store))
    ∧ resp500db ≠ resp404 := by
  have hv : ValidateSecretID id = .error .invalidSecretID := by
    unfold ValidateSecretID
    by_cases hE : id = ""
    · rw [if_pos hE]
    · have hcond : ¬ ((id.toList.length = 22 && id.toList.all isIDChar) = true) := by
        simp only [Bool.and_eq_true, decide_eq_true_eq, List.all_eq_true]
        exact fun hc => hbad ⟨hc.1, fun c hcm => hc.2 c hcm⟩
      rw [if_neg hE, if_neg hcond]
  refine ⟨?_, ?_, by decide, by decide⟩
  · unfold GetSecret
    rw [hv]
  · unfold BurnSecret
    rw [hv]

theorem claim_C10_witness :
    GetSecret 0 "not-valid-id" [] = (resp404, [])
    ∧ BurnSecret "not-valid-id" [] = (resp404, [])
    ∧ GetSecret 0 "aaaaaaaaaaaaaaaaaaaaaa" ([] : Store) = (resp500db, ([] : Store))
    ∧ resp500db ≠ resp404 :=
  claim_C10_malformed_id 0 "not-valid-id" [] (by decide)

end OTS
